import Mathlib

/-!
Verification of the dependency-inversion examples in this repository.

The Rust sources embed three files:
* `src/material/dependency_inversion/real_world_di.rs` — namespace `RW`
  (`MockUserRepository`, `InMemoryCacheService`, `UserService`);
* `src/material/dependency_inversion/refactoring_with_di.rs` — namespace `RF`
  (`MockUserRepository`, `MockPasswordHasher`, `BcryptHasher`,
  `MockTokenService`, `MockCache`, `AuthService`);
* `src/material/dependency_inversion/dependency_inversion.rs` — namespace `DI`
  (`UserServiceBuilder`).

State held behind `Mutex` in the Rust code (the repository `Vec<User>` and the
cache `HashMap<String, String>`) is modelled by explicit state passing: a
service operation takes the state and returns the result paired with the new
state.  A `HashMap<String, String>` is modelled extensionally as a function
`String → Option String`.  The non-deterministic `uuid::Uuid::new_v4()` in
`AuthService::register` is modelled as an explicit `newId` argument.
Providers that the service receives as `Arc<dyn Trait>` objects are modelled,
where a claim needs quantification over implementations, as function
parameters of the operation.
-/

namespace RW

/-- `User` from `real_world_di.rs` (id, email, name). -/
structure User where
  id : String
  email : String
  name : String
deriving DecidableEq, Repr

/-- `MockUserRepository::find_by_id`: first user in the vector with this id. -/
def find_by_id (users : List User) (id : String) : Option User :=
  users.find? (fun u => u.id == id)

/-- `MockUserRepository::find_by_email`: first user with this email. -/
def find_by_email (users : List User) (email : String) : Option User :=
  users.find? (fun u => u.email == email)

/-- `MockUserRepository::create`: push the user and return it; never fails. -/
def create (users : List User) (user : User) : List User × User :=
  (users ++ [user], user)

/-- `MockUserRepository::delete`: retain users whose id differs; never fails. -/
def deleteById (users : List User) (id : String) : List User :=
  users.filter (fun u => u.id != id)

/-- The `HashMap<String, String>` inside `InMemoryCacheService`, extensionally. -/
def Cache : Type := String → Option String

/-- The empty cache (`HashMap::new`). -/
def Cache.empty : Cache := fun _ => none

/-- `InMemoryCacheService::get`. -/
def cache_get (c : Cache) (k : String) : Option String := c k

/-- `InMemoryCacheService::set`: inserts, ignoring the `_ttl_seconds` argument. -/
def cache_set (c : Cache) (k v : String) (_ttl : Option Nat) : Cache :=
  fun k' => if k' = k then some v else c k'

/-- `InMemoryCacheService::delete`: removes the key. -/
def cache_delete (c : Cache) (k : String) : Cache :=
  fun k' => if k' = k then none else c k'

/-- The mutable state reachable from a `UserService` wired with
`MockUserRepository` and `InMemoryCacheService`. -/
structure ServiceState where
  users : List User
  cache : Cache

/-- `UserService::get_user`, parametrised over the repository `find_by_id`
implementation (the service holds `Arc<dyn UserRepository>`).  The cache is
read at the derived key but the cached value is discarded (the Rust code only
prints "Cache hit!"); the repository is then always queried, and the cache is
set to the found user's id on success. -/
def get_user_with (find : String → Option User) (s : ServiceState) (id : String) :
    Except String (Option User) × ServiceState :=
  let cache_key := "user:" ++ id
  let _cached := cache_get s.cache cache_key
  match find id with
  | some u =>
      (Except.ok (some u),
        { s with cache := cache_set s.cache cache_key u.id (some 3600) })
  | none => (Except.ok none, s)

/-- `UserService::get_user` with the `MockUserRepository` wiring. -/
def get_user (s : ServiceState) (id : String) :
    Except String (Option User) × ServiceState :=
  get_user_with (find_by_id s.users) s id

/-- `UserService::create_user` with the `MockUserRepository` wiring: fail with
`"Email already exists"` if the email is taken, else create and cache. -/
def create_user (s : ServiceState) (user : User) :
    Except String User × ServiceState :=
  match find_by_email s.users user.email with
  | some _ => (Except.error "Email already exists", s)
  | none =>
      let p := create s.users user
      let cache_key := "user:" ++ p.2.id
      (Except.ok p.2,
        { users := p.1, cache := cache_set s.cache cache_key p.2.id (some 3600) })

/-- `UserService::create_user`, parametrised over the repository: `find` and
`cr` are one-call views of `find_by_email` and `create` of an arbitrary
`dyn UserRepository` implementation (both fallible with `String` errors, as
the trait allows). -/
def create_user_gen (find : String → Except String (Option User))
    (cr : User → Except String User) (cache : Cache) (user : User) :
    Except String User × Cache :=
  match find user.email with
  | Except.error e => (Except.error e, cache)
  | Except.ok (some _) => (Except.error "Email already exists", cache)
  | Except.ok none =>
      match cr user with
      | Except.error e => (Except.error e, cache)
      | Except.ok created =>
          (Except.ok created,
            cache_set cache ("user:" ++ created.id) created.id (some 3600))

/-- `UserService::delete_user` with the `MockUserRepository` wiring: the mock
delete always succeeds, then the cache entry for the derived key is removed. -/
def delete_user (s : ServiceState) (id : String) :
    Except String Unit × ServiceState :=
  let users' := deleteById s.users id
  let cache' := cache_delete s.cache ("user:" ++ id)
  (Except.ok (), { users := users', cache := cache' })

/-- The error strings `real_world_di.rs` itself produces. -/
def known_error_strings : List String :=
  ["Email already exists", "User not found"]

end RW

namespace RF

/-- `User` from `refactoring_with_di.rs` (id, email, password_hash, role). -/
structure User where
  id : String
  email : String
  password_hash : String
  role : String
deriving DecidableEq, Repr

/-- The `Error` enum from `refactoring_with_di.rs`. -/
inductive Error where
  | NotFound
  | AlreadyExists
  | InvalidCredentials
  | Internal (detail : String)
deriving DecidableEq, Repr

/-- `MockUserRepository::find_by_email`: first user with this email. -/
def find_by_email (users : List User) (email : String) : Option User :=
  users.find? (fun u => u.email == email)

/-- `MockUserRepository::create`: push the user; never fails. -/
def create (users : List User) (user : User) : List User :=
  users ++ [user]

/-- `users.iter_mut().find(|u| u.id == user.id)` followed by `*existing = user`:
replace the first user with the same id, `none` when there is none. -/
def replaceById : List User → User → Option (List User)
  | [], _ => none
  | x :: xs, u =>
      if x.id = u.id then some (u :: xs)
      else (replaceById xs u).map (fun l => x :: l)

/-- `MockUserRepository::update`: replace the user with the matching id and
return it, or fail with `NotFound` leaving the vector unchanged. -/
def update (users : List User) (user : User) : Except Error User × List User :=
  match replaceById users user with
  | some l => (Except.ok user, l)
  | none => (Except.error Error.NotFound, users)

/-- `MockPasswordHasher::hash`. -/
def mock_hash (password : String) : String := "mock_hash_" ++ password

/-- `MockPasswordHasher::verify`. -/
def mock_verify (password hash : String) : Bool := hash == mock_hash password

/-- `BcryptHasher::hash`. -/
def bcrypt_hash (password : String) : String := "hashed_" ++ password

/-- `BcryptHasher::verify`. -/
def bcrypt_verify (password hash : String) : Bool := hash == bcrypt_hash password

/-- `MockTokenService::generate`: always succeeds. -/
def mock_generate (user_id : String) : Except Error String :=
  Except.ok ("mock_token_" ++ user_id)

/-- The `HashMap<String, String>` inside `MockCache`, extensionally. -/
def Cache : Type := String → Option String

/-- The empty cache (`HashMap::new`). -/
def Cache.empty : Cache := fun _ => none

/-- `MockCache::get`. -/
def mc_get (c : Cache) (k : String) : Option String := c k

/-- `MockCache::set`: inserts, ignoring the `_ttl` argument. -/
def mc_set (c : Cache) (k v : String) (_ttl : Option Nat) : Cache :=
  fun k' => if k' = k then some v else c k'

/-- `MockCache::delete`: removes the key. -/
def mc_delete (c : Cache) (k : String) : Cache :=
  fun k' => if k' = k then none else c k'

/-- The mutable state reachable from an `AuthService` wired with
`MockUserRepository` and `MockCache` (the test wiring). -/
structure AuthState where
  users : List User
  cache : Cache

/-- `AuthService::login` with `MockUserRepository`, `MockPasswordHasher` and
`MockCache`, parametrised over the token service `generate` implementation
(the service holds `Arc<dyn TokenService>`).  The cache is read first (value
discarded by the Rust code), then the user is looked up (`InvalidCredentials`
if absent), the password verified (`InvalidCredentials` on mismatch), a token
generated (errors propagate), the user id cached, and the token returned. -/
def login (gen : String → Except Error String) (s : AuthState)
    (email password : String) : Except Error String × AuthState :=
  let cache_key := "user:email:" ++ email
  let _cached := mc_get s.cache cache_key
  match find_by_email s.users email with
  | none => (Except.error Error.InvalidCredentials, s)
  | some user =>
      if mock_verify password user.password_hash then
        match gen user.id with
        | Except.error e => (Except.error e, s)
        | Except.ok token =>
            (Except.ok token,
              { s with cache := mc_set s.cache cache_key user.id (some 3600) })
      else (Except.error Error.InvalidCredentials, s)

/-- `AuthService::register` with the mock wiring.  `uuid::Uuid::new_v4()` is
modelled as the explicit `newId` argument.  If the email is taken, fail with
`AlreadyExists`; else hash the password, create the user and return it. -/
def register (newId : String) (s : AuthState) (email password : String) :
    Except Error User × AuthState :=
  match find_by_email s.users email with
  | some _ => (Except.error Error.AlreadyExists, s)
  | none =>
      let user : User :=
        { id := newId, email := email, password_hash := mock_hash password,
          role := "user" }
      (Except.ok user, { s with users := create s.users user })

/-- `AuthService::change_password` with the mock wiring.  The Rust parameter
`user_id` is passed to `find_by_email`, so it is an email.  Look up
(`NotFound` if absent), verify the old password (`InvalidCredentials` on
mismatch), update the stored record with the new hash, and delete the cache
entry for the derived key. -/
def change_password (s : AuthState) (user_id old_password new_password : String) :
    Except Error Unit × AuthState :=
  match find_by_email s.users user_id with
  | none => (Except.error Error.NotFound, s)
  | some user =>
      if mock_verify old_password user.password_hash then
        let updated : User := { user with password_hash := mock_hash new_password }
        match update s.users updated with
        | (Except.error e, users') => (Except.error e, { s with users := users' })
        | (Except.ok _, users') =>
            (Except.ok (),
              { users := users',
                cache := mc_delete s.cache ("user:email:" ++ user_id) })
      else (Except.error Error.InvalidCredentials, s)

end RF

namespace DI

/-- `UserService<R>` from `dependency_inversion.rs`: holds the repository. -/
structure UserService (R : Type) where
  repository : R

/-- `UserServiceBuilder<R>`: an optional repository, `None` until supplied. -/
structure UserServiceBuilder (R : Type) where
  repository : Option R

/-- `UserServiceBuilder::new`. -/
def UserServiceBuilder.new (R : Type) : UserServiceBuilder R := ⟨none⟩

/-- `UserServiceBuilder::with_repository`: store the repository. -/
def with_repository {R : Type} (b : UserServiceBuilder R) (r : R) :
    UserServiceBuilder R :=
  { b with repository := some r }

/-- `UserServiceBuilder::build`: `self.repository.ok_or("Repository not set")?`
wrapped into a `UserService`. -/
def build {R : Type} (b : UserServiceBuilder R) :
    Except String (UserService R) :=
  match b.repository with
  | some r => Except.ok ⟨r⟩
  | none => Except.error "Repository not set"

end DI

/-! ## Helper lemmas -/

theorem string_append_left_cancel {s a b : String} (h : s ++ a = s ++ b) :
    a = b := by
  have h2 : s.data ++ a.data = s.data ++ b.data := by
    rw [← String.data_append, ← String.data_append, h]
  have h3 : a.data = b.data := List.append_cancel_left h2
  cases a; cases b; simp_all

theorem RF.mock_hash_inj {a b : String} (h : RF.mock_hash a = RF.mock_hash b) :
    a = b :=
  string_append_left_cancel h

theorem RF.mock_verify_iff (password hash : String) :
    RF.mock_verify password hash = true ↔ hash = RF.mock_hash password := by
  simp [RF.mock_verify]

/-- A successful `find?` splits the list at the first hit. -/
theorem find?_eq_some_split {α : Type} (p : α → Bool) :
    ∀ (l : List α) (a : α), l.find? p = some a →
      ∃ l1 l2, l = l1 ++ a :: l2 ∧ (∀ x ∈ l1, p x = false)
  | [], a, h => by simp [List.find?] at h
  | x :: xs, a, h => by
      by_cases hx : p x
      · refine ⟨[], xs, ?_, by simp⟩
        rw [List.find?_cons_of_pos _ hx] at h
        simp_all
      · rw [List.find?_cons_of_neg _ hx] at h
        obtain ⟨l1, l2, hsplit, hfail⟩ := find?_eq_some_split p xs a h
        refine ⟨x :: l1, l2, by simp [hsplit], ?_⟩
        intro y hy
        rcases List.mem_cons.mp hy with rfl | hy'
        · simpa using hx
        · exact hfail y hy'

/-- `find?` on a list whose head part all fails finds the marked element. -/
theorem find?_middle {α : Type} (p : α → Bool) (l1 l2 : List α) (a : α)
    (hfail : ∀ x ∈ l1, p x = false) (ha : p a = true) :
    (l1 ++ a :: l2).find? p = some a := by
  induction l1 with
  | nil => simp [List.find?_cons_of_pos _ ha]
  | cons x xs ih =>
      have hx : p x = false := hfail x (List.mem_cons_self x xs)
      rw [List.cons_append, List.find?_cons_of_neg _ (by simp [hx])]
      exact ih fun y hy => hfail y (List.mem_cons_of_mem x hy)

/-- `replaceById` succeeds whenever some stored user carries the wanted id. -/
theorem RF.replaceById_isSome (upd : RF.User) :
    ∀ (l : List RF.User), (∃ x ∈ l, x.id = upd.id) →
      ∃ res, RF.replaceById l upd = some res
  | [], h => by simp at h
  | y :: ys, h => by
      by_cases hy : y.id = upd.id
      · exact ⟨upd :: ys, by simp [RF.replaceById, hy]⟩
      · obtain ⟨x, hx, hxid⟩ := h
        rcases List.mem_cons.mp hx with rfl | hx'
        · exact absurd hxid hy
        · obtain ⟨res, hres⟩ := RF.replaceById_isSome upd ys ⟨x, hx', hxid⟩
          exact ⟨y :: res, by simp [RF.replaceById, hy, hres]⟩

/-- After `replaceById` on a list whose prefix before `u` all fails `p`, a
`find?` for `p` returns the replacement, provided the replacement satisfies
`p` and carries `u`'s id. -/
theorem RF.find?_replaceById (p : RF.User → Bool) (upd u : RF.User)
    (hid : u.id = upd.id) (hp : p upd = true) :
    ∀ (l1 l2 : List RF.User) (res : List RF.User),
      (∀ x ∈ l1, p x = false) →
      RF.replaceById (l1 ++ u :: l2) upd = some res →
      res.find? p = some upd
  | [], l2, res, _, hres => by
      simp only [List.nil_append, RF.replaceById, hid, if_true] at hres
      cases hres
      simp [List.find?_cons_of_pos _ hp]
  | x :: xs, l2, res, hfail, hres => by
      by_cases hx : x.id = upd.id
      · simp only [List.cons_append, RF.replaceById, hx, if_true] at hres
        cases hres
        simp [List.find?_cons_of_pos _ hp]
      · simp only [List.cons_append, RF.replaceById, hx, if_false,
          Option.map_eq_some'] at hres
        obtain ⟨res', hres', rfl⟩ := hres
        have hxp : p x = false := hfail x (List.mem_cons_self x xs)
        rw [List.find?_cons_of_neg _ (by simp [hxp])]
        exact RF.find?_replaceById p upd u hid hp xs l2 res'
          (fun y hy => hfail y (List.mem_cons_of_mem x hy)) hres'

/-! ## Claim theorems -/

/-- Claim C4: for every record whose primary-key id does not collide with an
already-stored record, inserting it via `MockUserRepository::create` and then
calling `find_by_id` with that id returns the inserted record. -/
theorem C4_create_then_find_by_id (users : List RW.User) (user : RW.User)
    (h : RW.find_by_id users user.id = none) :
    RW.find_by_id (RW.create users user).1 user.id = some user := by
  have h' : users.find? (fun u => u.id == user.id) = none := h
  show (users ++ [user]).find? (fun u => u.id == user.id) = some user
  rw [List.find?_append, h', Option.none_or]
  simp [List.find?]

/-- Witness for C4 at a concrete input. -/
theorem C4_witness :
    RW.find_by_id ([] : List RW.User) "1" = none ∧
    RW.find_by_id
        (RW.create [] { id := "1", email := "a@x.com", name := "A" }).1 "1" =
      some { id := "1", email := "a@x.com", name := "A" } :=
  ⟨by decide,
   C4_create_then_find_by_id [] { id := "1", email := "a@x.com", name := "A" }
     (by decide)⟩

/-- Claim C5: after `UserService::delete_user id` succeeds, `get_user id`
returns `None`, leaves the state unchanged, and the cache entry under the
derived key `"user:" ++ id` is absent. -/
theorem C5_delete_then_get_none (s : RW.ServiceState) (id : String) :
    (RW.delete_user s id).1 = Except.ok () ∧
    (RW.get_user (RW.delete_user s id).2 id).1 = Except.ok none ∧
    (RW.get_user (RW.delete_user s id).2 id).2 = (RW.delete_user s id).2 ∧
    RW.cache_get (RW.delete_user s id).2.cache ("user:" ++ id) = none := by
  have hfind : RW.find_by_id (RW.deleteById s.users id) id = none := by
    apply List.find?_eq_none.mpr
    intro x hx
    have := (List.mem_filter.mp hx).2
    simp only [bne_iff_ne, ne_eq, decide_eq_true_eq] at this ⊢
    simpa using this
  refine ⟨rfl, ?_, ?_, ?_⟩
  · simp [RW.delete_user, RW.get_user, RW.get_user_with, hfind]
  · simp [RW.delete_user, RW.get_user, RW.get_user_with, hfind]
  · simp [RW.delete_user, RW.cache_get, RW.cache_delete]

/-- Claim C7: `UserServiceBuilder::build` fails (with `"Repository not set"`)
exactly when no repository was supplied; after `with_repository r`, `build`
returns a service holding exactly `r`. -/
theorem C7_builder_build (R : Type) (b : DI.UserServiceBuilder R) (r : R) :
    DI.build (DI.UserServiceBuilder.new R) =
      Except.error "Repository not set" ∧
    (DI.build b = Except.error "Repository not set" ↔ b.repository = none) ∧
    ((∃ e, DI.build b = Except.error e) ↔ b.repository = none) ∧
    DI.build (DI.with_repository b r) = Except.ok ⟨r⟩ := by
  obtain ⟨repo⟩ := b
  refine ⟨rfl, ?_, ?_, rfl⟩ <;> cases repo <;>
    simp [DI.build, DI.with_repository]

/-- Claim C9: for both hashers, `verify p (hash p)` is `true`, and
`verify p h` is `true` exactly when `h = hash p`. -/
theorem C9_hash_verify_roundtrip (password h : String) :
    RF.mock_verify password (RF.mock_hash password) = true ∧
    RF.bcrypt_verify password (RF.bcrypt_hash password) = true ∧
    (RF.mock_verify password h = true ↔ h = RF.mock_hash password) ∧
    (RF.bcrypt_verify password h = true ↔ h = RF.bcrypt_hash password) := by
  simp [RF.mock_verify, RF.bcrypt_verify]

/-- Claim C10: for both in-memory caches, `get` after `set k v t` returns
`some v` for every ttl `t`, `set` ignores its ttl argument entirely, entries
survive `set`/`delete` on other keys, and only an explicit `delete k` removes
the entry (after which `get k` is `none`). -/
theorem C10_cache_behaviour (c : RW.Cache) (c2 : RF.Cache) (k k' v : String)
    (t t' : Option Nat) :
    RW.cache_get (RW.cache_set c k v t) k = some v ∧
    RW.cache_get (RW.cache_delete c k) k = none ∧
    RW.cache_set c k v t = RW.cache_set c k v t' ∧
    (k ≠ k' → RW.cache_get (RW.cache_set c k' v t) k = RW.cache_get c k) ∧
    (k ≠ k' → RW.cache_get (RW.cache_delete c k') k = RW.cache_get c k) ∧
    RF.mc_get (RF.mc_set c2 k v t) k = some v ∧
    RF.mc_get (RF.mc_delete c2 k) k = none ∧
    RF.mc_set c2 k v t = RF.mc_set c2 k v t' ∧
    (k ≠ k' → RF.mc_get (RF.mc_set c2 k' v t) k = RF.mc_get c2 k) ∧
    (k ≠ k' → RF.mc_get (RF.mc_delete c2 k') k = RF.mc_get c2 k) := by
  refine ⟨?_, ?_, rfl, fun h => ?_, fun h => ?_, ?_, ?_, rfl,
    fun h => ?_, fun h => ?_⟩ <;>
    simp [RW.cache_get, RW.cache_set, RW.cache_delete,
      RF.mc_get, RF.mc_set, RF.mc_delete, *]

/-- Witness for C10 at concrete keys. -/
theorem C10_witness :
    ("a" : String) ≠ "b" ∧
    RW.cache_get (RW.cache_set RW.Cache.empty "b" "v" (some 5)) "a" =
      RW.cache_get RW.Cache.empty "a" ∧
    RF.mc_get (RF.mc_delete RF.Cache.empty "b") "a" =
      RF.mc_get RF.Cache.empty "a" := by
  refine ⟨by decide, ?_, ?_⟩
  · exact (C10_cache_behaviour RW.Cache.empty RF.Cache.empty "a" "b" "v"
      (some 5) none).2.2.2.1 (by decide)
  · exact (C10_cache_behaviour RW.Cache.empty RF.Cache.empty "a" "b" "v"
      (some 5) none).2.2.2.2.2.2.2.2.2 (by decide)

/-- Claim C1: when the unique key (email) already maps to a stored record,
`UserService::create_user` fails with `"Email already exists"`,
`AuthService::register` fails with `AlreadyExists`, both leave the state
unchanged, and (parametrically over repositories) the repository `create` is
never invoked: the outcome does not depend on it and the cache is untouched. -/
theorem C1_duplicate_create_rejected
    (s : RW.ServiceState) (t : RF.AuthState) (user u : RW.User) (w : RF.User)
    (newId email password : String)
    (h : RW.find_by_email s.users user.email = some u)
    (h2 : RF.find_by_email t.users email = some w) :
    RW.create_user s user = (Except.error "Email already exists", s) ∧
    RF.register newId t email password =
      (Except.error RF.Error.AlreadyExists, t) ∧
    (∀ (find : String → Except String (Option RW.User))
       (cr : RW.User → Except String RW.User) (c : RW.Cache) (x : RW.User),
       find user.email = Except.ok (some x) →
       RW.create_user_gen find cr c user =
         (Except.error "Email already exists", c)) := by
  refine ⟨?_, ?_, ?_⟩
  · simp [RW.create_user, h]
  · simp [RF.register, h2]
  · intro find cr c x hf
    simp [RW.create_user_gen, hf]

/-- A seeded user for the `real_world_di.rs` service, matching the spec's
concrete scenario shape. -/
def rw_seed_user : RW.User := { id := "1", email := "a@x.com", name := "A" }

/-- A seeded state for the `real_world_di.rs` service. -/
def rw_seed_state : RW.ServiceState :=
  { users := [rw_seed_user], cache := RW.Cache.empty }

/-- A second record colliding on the email with `rw_seed_user`. -/
def rw_dup_user : RW.User := { id := "2", email := "a@x.com", name := "B" }

/-- The spec's concrete scenario user for `refactoring_with_di.rs`:
`{id:"1", key:"a@x.com", secret_hash:H("p1")}`. -/
def rf_seed_user : RF.User :=
  { id := "1", email := "a@x.com", password_hash := RF.mock_hash "p1",
    role := "user" }

/-- A seeded state for the `refactoring_with_di.rs` service. -/
def rf_seed_state : RF.AuthState :=
  { users := [rf_seed_user], cache := RF.Cache.empty }

/-- Witness for C1 at a concrete input. -/
theorem C1_witness :
    RW.create_user rw_seed_state rw_dup_user =
      (Except.error "Email already exists", rw_seed_state) ∧
    RF.register "9" rf_seed_state "a@x.com" "p9" =
      (Except.error RF.Error.AlreadyExists, rf_seed_state) :=
  ⟨(C1_duplicate_create_rejected rw_seed_state rf_seed_state rw_dup_user
      rw_seed_user rf_seed_user "9" "a@x.com" "p9" (by decide) (by decide)).1,
   (C1_duplicate_create_rejected rw_seed_state rf_seed_state rw_dup_user
      rw_seed_user rf_seed_user "9" "a@x.com" "p9" (by decide) (by decide)).2.1⟩

/-- Claim C2: `AuthService::login` with the correct secret (one whose hash
verifies against the stored `password_hash`) returns the token for the stored
user's id; with an unknown email or a mismatching secret it returns
`InvalidCredentials`, leaves the state unchanged, and never calls the token
issuer (the outcome is the same for every `generate` implementation). -/
theorem C2_login_behaviour (s : RF.AuthState) (email password : String) :
    (∀ u, RF.find_by_email s.users email = some u →
       RF.mock_verify password u.password_hash = true →
       (RF.login RF.mock_generate s email password).1 =
         Except.ok ("mock_token_" ++ u.id)) ∧
    (RF.find_by_email s.users email = none →
       ∀ gen, RF.login gen s email password =
         (Except.error RF.Error.InvalidCredentials, s)) ∧
    (∀ u, RF.find_by_email s.users email = some u →
       RF.mock_verify password u.password_hash = false →
       ∀ gen, RF.login gen s email password =
         (Except.error RF.Error.InvalidCredentials, s)) := by
  refine ⟨?_, ?_, ?_⟩
  · intro u hu hv
    simp [RF.login, hu, hv, RF.mock_generate]
  · intro h gen
    simp [RF.login, h]
  · intro u hu hv gen
    simp [RF.login, hu, hv]

/-- Witness for C2: the spec's concrete scenario — authenticate
("a@x.com", "p1") succeeds with a token, ("a@x.com", "wrong") fails. -/
theorem C2_witness :
    (RF.login RF.mock_generate rf_seed_state "a@x.com" "p1").1 =
      Except.ok ("mock_token_" ++ rf_seed_user.id) ∧
    RF.login RF.mock_generate rf_seed_state "a@x.com" "wrong" =
      (Except.error RF.Error.InvalidCredentials, rf_seed_state) :=
  ⟨(C2_login_behaviour rf_seed_state "a@x.com" "p1").1 rf_seed_user
      (by decide) (by decide),
   (C2_login_behaviour rf_seed_state "a@x.com" "wrong").2.2 rf_seed_user
      (by decide) (by decide) RF.mock_generate⟩

/-- A repository stub that never finds a user, for C6. -/
def c6_find_none : String → Option RW.User := fun _ => none

/-- A concrete user returned by the second repository stub for C6. -/
def c6_user : RW.User := { id := "1", email := "a@x.com", name := "A" }

/-- A repository stub that always finds `c6_user`, for C6. -/
def c6_find_some : String → Option RW.User := fun _ => some c6_user

/-- A service state whose cache already holds the derived key `"user:1"`
(a guaranteed cache hit) while the repository is empty. -/
def c6_state : RW.ServiceState :=
  { users := [], cache := RW.cache_set RW.Cache.empty "user:1" "1" none }

/-- Counterexample for C6: on a state with a cache hit at the derived key,
`get_user` does not return the cached record (it returns `none` because the
repository is empty), and its result still depends on the repository — so the
repository is queried even on a cache hit, contrary to the claim. -/
theorem C6_counterexample :
    RW.cache_get c6_state.cache "user:1" = some "1" ∧
    (RW.get_user c6_state "1").1 = Except.ok none ∧
    (RW.get_user_with c6_find_none c6_state "1").1 ≠
      (RW.get_user_with c6_find_some c6_state "1").1 := by
  refine ⟨rfl, rfl, ?_⟩
  intro h
  have h' : (Except.ok none : Except String (Option RW.User)) =
      Except.ok (some c6_user) := h
  simp at h'

/-- Claim C6 (amended): `UserService::get_user` reads the cache at the derived
key but ignores the cached value: it always queries the repository, its
returned value is the repository lookup result and is independent of the cache
contents; when the repository returns a record the cache is populated with the
record's id under the derived key, else the state is unchanged. -/
theorem C6_get_user_amended (s : RW.ServiceState) (id : String) (c : RW.Cache) :
    (RW.get_user s id).1 = Except.ok (RW.find_by_id s.users id) ∧
    (RW.get_user { s with cache := c } id).1 = (RW.get_user s id).1 ∧
    (RW.find_by_id s.users id = none → (RW.get_user s id).2 = s) ∧
    (∀ u, RW.find_by_id s.users id = some u →
       (RW.get_user s id).2 =
         { s with
             cache := RW.cache_set s.cache ("user:" ++ id) u.id (some 3600) }) := by
  cases hfind : RW.find_by_id s.users id <;>
    simp [RW.get_user, RW.get_user_with, hfind]

/-- Witness for C6 (amended) at a concrete input. -/
theorem C6_witness :
    RW.find_by_id rw_seed_state.users "1" = some rw_seed_user ∧
    (RW.get_user rw_seed_state "1").2 =
      { rw_seed_state with
          cache := RW.cache_set rw_seed_state.cache ("user:" ++ "1")
            rw_seed_user.id (some 3600) } :=
  ⟨by decide,
   (C6_get_user_amended rw_seed_state "1" RW.Cache.empty).2.2.2 rw_seed_user
     (by decide)⟩

/-- Claim C8 (amended): every `AuthService` error is one of the four taxonomy
kinds (its error type has exactly these constructors), and provider faults —
already taxonomy values there — propagate unchanged through `login`; the
`real_world_di.rs` `UserService`, by contrast, uses plain `String` errors and
exposes a provider fault verbatim, without wrapping it as `Internal`. -/
theorem C8_error_taxonomy (e : RF.Error)
    (gen : String → Except RF.Error String) (s : RF.AuthState)
    (email password : String) (u : RF.User) (fe : RF.Error)
    (find : String → Except String (Option RW.User))
    (cr : RW.User → Except String RW.User) (c : RW.Cache) (user : RW.User)
    (es : String) :
    (e = RF.Error.NotFound ∨ e = RF.Error.AlreadyExists ∨
      e = RF.Error.InvalidCredentials ∨ ∃ d, e = RF.Error.Internal d) ∧
    (RF.find_by_email s.users email = some u →
      RF.mock_verify password u.password_hash = true →
      gen u.id = Except.error fe →
      RF.login gen s email password = (Except.error fe, s)) ∧
    (find user.email = Except.error es →
      RW.create_user_gen find cr c user = (Except.error es, c)) := by
  refine ⟨?_, ?_, ?_⟩
  · cases e <;> simp
  · intro hu hv hg
    simp [RF.login, hu, hv, hg]
  · intro hf
    simp [RW.create_user_gen, hf]

/-- A repository stub whose lookup fails with a backend-specific error. -/
def c8_find : String → Except String (Option RW.User) :=
  fun _ => Except.error "sql: connection refused"

/-- A trivial repository create stub for C8. -/
def c8_create : RW.User → Except String RW.User := fun u => Except.ok u

/-- Counterexample for C8: a provider fault outside the error vocabulary the
repository code itself produces surfaces verbatim to the caller of
`create_user`, as a backend-specific `String`, not wrapped as `Internal`. -/
theorem C8_counterexample :
    RW.create_user_gen c8_find c8_create RW.Cache.empty rw_dup_user =
      (Except.error "sql: connection refused", RW.Cache.empty) ∧
    "sql: connection refused" ∉ RW.known_error_strings :=
  ⟨rfl, by decide⟩

/-- Witness for C8 (amended) at a concrete input. -/
theorem C8_witness :
    c8_find rw_dup_user.email = Except.error "sql: connection refused" ∧
    RW.create_user_gen c8_find c8_create RW.Cache.empty rw_dup_user =
      (Except.error "sql: connection refused", RW.Cache.empty) :=
  ⟨rfl,
   (C8_error_taxonomy RF.Error.NotFound RF.mock_generate rf_seed_state
      "a@x.com" "p1" rf_seed_user RF.Error.NotFound c8_find c8_create
      RW.Cache.empty rw_dup_user "sql: connection refused").2.2 rfl⟩

/-- Claim C3 (amended): for every stored user found under their email, after a
successful `change_password` with the correct old secret and a *different* new
secret, `login` with the new secret succeeds and `login` with the old secret
fails with `InvalidCredentials`. -/
theorem C3_change_password_then_login (s : RF.AuthState)
    (user_id old_password new_password : String) (u : RF.User)
    (hu : RF.find_by_email s.users user_id = some u)
    (hv : RF.mock_verify old_password u.password_hash = true)
    (hne : old_password ≠ new_password) :
    (RF.change_password s user_id old_password new_password).1 =
      Except.ok () ∧
    (RF.login RF.mock_generate
        (RF.change_password s user_id old_password new_password).2
        user_id new_password).1 = Except.ok ("mock_token_" ++ u.id) ∧
    (RF.login RF.mock_generate
        (RF.change_password s user_id old_password new_password).2
        user_id old_password).1 =
      Except.error RF.Error.InvalidCredentials := by
  have hu' : s.users.find? (fun x => x.email == user_id) = some u := hu
  have hemail : u.email = user_id := by
    have := List.find?_some hu'
    simpa using this
  have hmem : u ∈ s.users := List.mem_of_find?_eq_some hu'
  obtain ⟨l1, l2, hsplit, hfail⟩ := find?_eq_some_split _ s.users u hu'
  obtain ⟨res, hres⟩ := RF.replaceById_isSome
    { u with password_hash := RF.mock_hash new_password } s.users
    ⟨u, hmem, rfl⟩
  have hupdate : RF.update s.users
      { u with password_hash := RF.mock_hash new_password } =
      (Except.ok { u with password_hash := RF.mock_hash new_password }, res) := by
    simp [RF.update, hres]
  have hfind2 : RF.find_by_email res user_id =
      some { u with password_hash := RF.mock_hash new_password } := by
    show res.find? (fun x => x.email == user_id) =
      some { u with password_hash := RF.mock_hash new_password }
    apply RF.find?_replaceById (fun x => x.email == user_id)
      { u with password_hash := RF.mock_hash new_password } u rfl
      (by simp [hemail]) l1 l2 res hfail
    rw [← hsplit]
    exact hres
  have hcp : RF.change_password s user_id old_password new_password =
      (Except.ok (),
        { users := res,
          cache := RF.mc_delete s.cache ("user:email:" ++ user_id) }) := by
    simp [RF.change_password, hu, hv, hupdate]
  rw [hcp]
  have hvnew : RF.mock_verify new_password
      (RF.mock_hash new_password) = true := by
    simp [RF.mock_verify]
  have hvold : RF.mock_verify old_password
      (RF.mock_hash new_password) = false := by
    by_contra hc
    rw [Bool.not_eq_false] at hc
    have heq : RF.mock_hash new_password = RF.mock_hash old_password :=
      (RF.mock_verify_iff _ _).mp hc
    exact hne (RF.mock_hash_inj heq).symm
  refine ⟨rfl, ?_, ?_⟩
  · simp [RF.login, hfind2, RF.mock_verify, RF.mock_generate]
  · simp [RF.login, hfind2, hvold]

/-- Witness for C3: change the seeded user's password from "p1" to "p2", then
log in with "p2" (succeeds) and with "p1" (fails). -/
theorem C3_witness :
    RF.find_by_email rf_seed_state.users "a@x.com" = some rf_seed_user ∧
    RF.mock_verify "p1" rf_seed_user.password_hash = true ∧
    ("p1" : String) ≠ "p2" ∧
    (RF.change_password rf_seed_state "a@x.com" "p1" "p2").1 =
      Except.ok () ∧
    (RF.login RF.mock_generate
        (RF.change_password rf_seed_state "a@x.com" "p1" "p2").2
        "a@x.com" "p2").1 = Except.ok ("mock_token_" ++ rf_seed_user.id) ∧
    (RF.login RF.mock_generate
        (RF.change_password rf_seed_state "a@x.com" "p1" "p2").2
        "a@x.com" "p1").1 = Except.error RF.Error.InvalidCredentials := by
  have h := C3_change_password_then_login rf_seed_state "a@x.com" "p1" "p2"
    rf_seed_user (by decide) (by decide) (by decide)
  exact ⟨by decide, by decide, by decide, h.1, h.2.1, h.2.2⟩

/-- Counterexample for C3 as stated: choosing the new secret equal to the old
one, `change_password` succeeds, yet a subsequent `login` with the old secret
still succeeds instead of failing with `InvalidCredentials`. -/
theorem C3_counterexample :
    (RF.change_password rf_seed_state "a@x.com" "p1" "p1").1 =
      Except.ok () ∧
    (RF.login RF.mock_generate
        (RF.change_password rf_seed_state "a@x.com" "p1" "p1").2
        "a@x.com" "p1").1 = Except.ok ("mock_token_" ++ "1") := by
  exact ⟨rfl, rfl⟩
